import Mathlib

/-!
Verification of the QuickSight Terraform resources (data source / group):
composite-identifier codec, the asynchronous status poller of the data-source
read operation, and the delete operations.  Go strings are modelled as lists
of characters; the fallible Go functions return `Except` / explicit outcome
types.
-/

/-- Go strings, modelled as their character sequences. -/
abbrev GoStr := List Char

/-- Split a string at its first `/`: `none` when the string has no `/`,
otherwise the part before and the part after the first `/`.  This is the
primitive underlying Go's `strings.SplitN(s, "/", n)`. -/
def breakSlash : GoStr → Option (GoStr × GoStr)
  | [] => none
  | c :: cs =>
    if c = '/' then some ([], cs)
    else
      match breakSlash cs with
      | none => none
      | some (l, r) => some (c :: l, r)

/-- Go's `strings.SplitN(s, "/", n)` for `n ≥ 0`: at most `n` parts, the last
part holding the unsplit remainder.  (`n = 0` yields no parts, as in Go.) -/
def goSplitN (s : GoStr) : Nat → List GoStr
  | 0 => []
  | 1 => [s]
  | n + 2 =>
    match breakSlash s with
    | none => [s]
    | some (l, r) => l :: goSplitN r (n + 1)

/-- Go's `strings.Split(s, "/")`: the full list of `/`-separated segments. -/
def splitOnSlash : GoStr → List GoStr
  | [] => [[]]
  | c :: cs =>
    match splitOnSlash cs with
    | [] => [[]]
    | p :: ps => if c = '/' then [] :: p :: ps else (c :: p) :: ps

/-- The error returned by the ParseID helpers:
`unexpected format of ID (<id>), expected ...`. -/
inductive ParseError
  | unexpectedFormat (id : GoStr)
deriving DecidableEq

/-- `resourceAwsQuickSightDataSourceParseID`: split the composite ID on `/`
into at most 2 parts; error when fewer than 2 parts or an empty part. -/
def resourceAwsQuickSightDataSourceParseID (id : GoStr) :
    Except ParseError (GoStr × GoStr) :=
  let parts := goSplitN id 2
  if parts.length < 2 ∨ parts.getD 0 [] = [] ∨ parts.getD 1 [] = [] then
    .error (.unexpectedFormat id)
  else
    .ok (parts.getD 0 [], parts.getD 1 [])

/-- `resourceAwsQuickSightGroupParseID`: split the composite ID on `/` into at
most 3 parts; error when fewer than 3 parts or an empty part. -/
def resourceAwsQuickSightGroupParseID (id : GoStr) :
    Except ParseError (GoStr × GoStr × GoStr) :=
  let parts := goSplitN id 3
  if parts.length < 3 ∨ parts.getD 0 [] = [] ∨ parts.getD 1 [] = [] ∨
      parts.getD 2 [] = [] then
    .error (.unexpectedFormat id)
  else
    .ok (parts.getD 0 [], parts.getD 1 [], parts.getD 2 [])

/-- The composite identifier stored by `resourceAwsQuickSightDataSourceCreate`:
`fmt.Sprintf("%s/%s", awsAccountId, id)`. -/
def dataSourceCompositeId (awsAccountId id : GoStr) : GoStr :=
  awsAccountId ++ '/' :: id

/-- The composite identifier stored by the group create handler:
`fmt.Sprintf("%s/%s/%s", awsAccountID, namespace, groupName)`. -/
def groupCompositeId (awsAccountId ns groupName : GoStr) : GoStr :=
  awsAccountId ++ '/' :: (ns ++ '/' :: groupName)

theorem breakSlash_none (s : GoStr) (h : '/' ∉ s) : breakSlash s = none := by
  induction s with
  | nil => rfl
  | cons c cs ih =>
    simp only [List.mem_cons, not_or] at h
    simp [breakSlash, Ne.symm h.1, ih h.2]

theorem breakSlash_append (a r : GoStr) (h : '/' ∉ a) :
    breakSlash (a ++ '/' :: r) = some (a, r) := by
  induction a with
  | nil => simp [breakSlash]
  | cons c cs ih =>
    simp only [List.mem_cons, not_or] at h
    simp [breakSlash, Ne.symm h.1, ih h.2]

theorem breakSlash_some (s l r : GoStr) (h : breakSlash s = some (l, r)) :
    s = l ++ '/' :: r ∧ '/' ∉ l := by
  induction s generalizing l r with
  | nil => simp [breakSlash] at h
  | cons c cs ih =>
    by_cases hc : c = '/'
    · subst hc
      simp [breakSlash] at h
      obtain ⟨h1, h2⟩ := h
      subst h1; subst h2
      simp
    · simp only [breakSlash, if_neg hc] at h
      cases hbs : breakSlash cs with
      | none => simp [hbs] at h
      | some p =>
        obtain ⟨l0, r0⟩ := p
        rw [hbs] at h
        simp only [Option.some.injEq, Prod.mk.injEq] at h
        obtain ⟨h1, h2⟩ := h
        obtain ⟨hs, hl⟩ := ih l0 r0 hbs
        subst h2
        rw [← h1]
        constructor
        · simp [hs]
        · simp only [List.mem_cons, not_or]
          exact ⟨fun he => hc he.symm, hl⟩

theorem dataSourceParseID_ok_iff (id a b : GoStr) :
    resourceAwsQuickSightDataSourceParseID id = .ok (a, b) ↔
      id = a ++ '/' :: b ∧ '/' ∉ a ∧ a ≠ [] ∧ b ≠ [] := by
  constructor
  · intro h
    unfold resourceAwsQuickSightDataSourceParseID goSplitN at h
    cases hbs : breakSlash id with
    | none => rw [hbs] at h; simp [goSplitN] at h
    | some p =>
      obtain ⟨l, r⟩ := p
      rw [hbs] at h
      simp only [goSplitN] at h
      obtain ⟨hid, hl⟩ := breakSlash_some id l r hbs
      by_cases h0 : l = []
      · simp [h0] at h
      · by_cases h1 : r = []
        · simp [h0, h1] at h
        · simp [h0, h1] at h
          obtain ⟨ha, hb⟩ := h
          subst ha; subst hb
          exact ⟨hid, hl, h0, h1⟩
  · rintro ⟨hid, hslash, ha, hb⟩
    subst hid
    unfold resourceAwsQuickSightDataSourceParseID goSplitN
    rw [breakSlash_append a b hslash]
    simp [goSplitN, ha, hb]

theorem groupParseID_ok_iff (id a b c : GoStr) :
    resourceAwsQuickSightGroupParseID id = .ok (a, b, c) ↔
      id = a ++ '/' :: (b ++ '/' :: c) ∧ '/' ∉ a ∧ '/' ∉ b ∧
        a ≠ [] ∧ b ≠ [] ∧ c ≠ [] := by
  constructor
  · intro h
    unfold resourceAwsQuickSightGroupParseID goSplitN at h
    cases hbs : breakSlash id with
    | none => rw [hbs] at h; simp [goSplitN] at h
    | some p =>
      obtain ⟨l, r⟩ := p
      rw [hbs] at h
      simp only [goSplitN] at h
      obtain ⟨hid, hl⟩ := breakSlash_some id l r hbs
      cases hbs2 : breakSlash r with
      | none => rw [hbs2] at h; simp [goSplitN] at h
      | some q =>
        obtain ⟨m, t⟩ := q
        rw [hbs2] at h
        simp only [goSplitN] at h
        obtain ⟨hr, hm⟩ := breakSlash_some r m t hbs2
        by_cases h0 : l = []
        · simp [h0] at h
        · by_cases h1 : m = []
          · simp [h0, h1] at h
          · by_cases h2 : t = []
            · simp [h0, h1, h2] at h
            · simp [h0, h1, h2] at h
              obtain ⟨ha, hb, hc⟩ := h
              subst ha; subst hb; subst hc
              exact ⟨by rw [hid, hr], hl, hm, h0, h1, h2⟩
  · rintro ⟨hid, hsa, hsb, ha, hb, hc⟩
    subst hid
    unfold resourceAwsQuickSightGroupParseID goSplitN
    rw [breakSlash_append a (b ++ '/' :: c) hsa]
    simp only [goSplitN]
    rw [breakSlash_append b c hsb]
    simp [goSplitN, ha, hb, hc]

/-! ## The data-source read poller -/

/-- The QuickSight `ResourceStatus` string constants. -/
inductive ResourceStatus
  | creationInProgress
  | creationSuccessful
  | creationFailed
  | updateInProgress
  | updateSuccessful
  | updateFailed
  | deleted
deriving DecidableEq

/-- A QuickSight `DataSource` payload (only the fields the read uses).
`status` is `none` when the `Status` pointer is nil (`aws.StringValue` then
yields `""`, which matches no status constant). -/
structure DataSource where
  arn : GoStr
  dataSourceId : GoStr
  status : Option ResourceStatus
deriving DecidableEq

/-- `quicksight.DescribeDataSourceOutput` (its `DataSource` pointer). -/
structure DescribeDataSourceOutput where
  dataSource : Option DataSource
deriving DecidableEq

/-- An AWS API error, as classified by `isAWSErr`: either the
`ResourceNotFoundException` code or some other error code. -/
inductive AwsErr
  | resourceNotFound
  | other (code : GoStr)
deriving DecidableEq

/-- The `(resp, err)` pair returned by one `conn.DescribeDataSource` call. -/
structure DescribeResult where
  resp : Option DescribeDataSourceOutput
  err : Option AwsErr
deriving DecidableEq

/-- `quicksight.DescribeDataSourceInput`. -/
structure DescribeDataSourceInput where
  awsAccountId : GoStr
  dataSourceId : GoStr
deriving DecidableEq

/-- The errors the retry closure can produce: the retryable
`"Data Source operation still in progress (<id>): <status>"`, the fatal
`"Data Source operation failed (<id>): <status>"`, or a propagated API
error. -/
inductive PollError
  | stillInProgress (id : GoStr) (status : Option ResourceStatus)
  | operationFailed (id : GoStr) (status : Option ResourceStatus)
  | api (e : AwsErr)
deriving DecidableEq

/-- The value of the closure passed to `resource.Retry`:
`resource.RetryableError`, `resource.NonRetryableError`, or `nil`. -/
inductive RetryFuncResult
  | retryable (e : PollError)
  | nonRetryable (e : PollError)
  | done
deriving DecidableEq

/-- The closure of `resourceAwsQuickSightDataSourceRead` passed to
`resource.Retry`, acting on the result of one `DescribeDataSource` call:
an in-progress status is retryable; a failed status is non-retryable; then a
non-nil call error is non-retryable; anything else is success.  (The status
checks precede the error check, as in the source.) -/
def dataSourceRetryFunc (id : GoStr) (r : DescribeResult) : RetryFuncResult :=
  let checkErr : RetryFuncResult :=
    match r.err with
    | some e => .nonRetryable (.api e)
    | none => .done
  match r.resp with
  | some out =>
    match out.dataSource with
    | some ds =>
      if ds.status = some .creationInProgress ∨
          ds.status = some .updateInProgress then
        .retryable (.stillInProgress id ds.status)
      else if ds.status = some .creationFailed ∨
          ds.status = some .updateFailed then
        .nonRetryable (.operationFailed id ds.status)
      else checkErr
    | none => checkErr
  | none => checkErr

/-- Outcome of the whole retry loop: success, a non-retryable error, or a
timeout (carrying the last retryable error when one was observed). -/
inductive RetryOutcome
  | ok
  | failed (e : PollError)
  | timedOut (last : Option PollError)
deriving DecidableEq

/-- The retry loop's result together with its observable cost: how many
fetches it made and the cumulative elapsed wait time. -/
structure RetryStats where
  outcome : RetryOutcome
  fetchCount : Nat
  elapsed : Nat
deriving DecidableEq

/-- Modelled from the spec: the retry combinator (`resource.Retry` of the
Terraform plugin SDK) is not part of this repository.  Per the spec (§4.1),
it invokes the fetch, stops immediately on success or on a non-retryable
error, and on a retryable error waits one backoff interval and re-invokes,
returning a distinguishable timeout once the cumulative elapsed time exceeds
the maximum wait duration (exceeding it by at most one backoff interval).
`i` is the index of the next fetch, `t` the elapsed time so far; the `fuel`
argument only makes the recursion structural and is chosen large enough that
it never runs out. -/
def retryLoop (f : Nat → RetryFuncResult) (backoff maxWait : Nat) :
    Nat → Nat → Nat → RetryStats
  | i, t, 0 => ⟨.timedOut none, i, t⟩
  | i, t, fuel + 1 =>
    match f i with
    | .done => ⟨.ok, i + 1, t⟩
    | .nonRetryable e => ⟨.failed e, i + 1, t⟩
    | .retryable e =>
      if maxWait < t + backoff then ⟨.timedOut (some e), i + 1, t + backoff⟩
      else retryLoop f backoff maxWait (i + 1) (t + backoff) fuel

/-- The poll performed by `resourceAwsQuickSightDataSourceRead`:
`resource.Retry` applied to the describe closure over a trace `fetch` of
describe-call results. -/
def pollDataSource (id : GoStr) (fetch : Nat → DescribeResult)
    (backoff maxWait : Nat) : RetryStats :=
  retryLoop (fun i => dataSourceRetryFunc id (fetch i)) backoff maxWait 0 0
    (maxWait / backoff + 1)

/-- The maximum wait passed to `resource.Retry`: `5*time.Minute`, in
nanoseconds (Go `time.Duration` units). -/
def dataSourceReadTimeout : Nat := 5 * 60 * 1000000000

/-- Observable outcome of `resourceAwsQuickSightDataSourceRead`. -/
inductive ReadOutcome
  | ok (arn : GoStr) (dataSourceId : GoStr) (awsAccountId : GoStr)
  | cleared
  | parseError (e : ParseError)
  | describeError (e : PollError)
  | nilPanic
deriving DecidableEq

/-- The error value `resource.Retry` hands back to the caller: `nil` on
success, otherwise the non-retryable error or (per the spec's timeout
contract) the timeout's last observed error. -/
def retryReturnedError : RetryStats → Option PollError
  | ⟨.ok, _, _⟩ => none
  | ⟨.failed e, _, _⟩ => some e
  | ⟨.timedOut (some e), _, _⟩ => some e
  | ⟨.timedOut none, _, _⟩ => some (.api (.other []))

/-- `isAWSErr(err, quicksight.ErrCodeResourceNotFoundException, "")`. -/
def isAWSErrNotFound : PollError → Bool
  | .api .resourceNotFound => true
  | _ => false

/-- `resourceAwsQuickSightDataSourceRead`: parse the composite ID, poll the
describe call under `resource.Retry`, then clear the ID on a not-found
error, surface any other error, and otherwise set `arn`, `id` and
`aws_account_id` from `resp` — the outer `resp` variable, which the closure
never assigns (the closure's `resp, err :=` redeclares `resp`, shadowing the
outer one, in the source), so the success path dereferences a nil pointer. -/
def resourceAwsQuickSightDataSourceRead (id : GoStr)
    (describe : DescribeDataSourceInput → Nat → DescribeResult)
    (backoff : Nat) : ReadOutcome :=
  match resourceAwsQuickSightDataSourceParseID id with
  | .error e => .parseError e
  | .ok (awsAccountId, dataSourceId) =>
    let descOpts : DescribeDataSourceInput := ⟨awsAccountId, dataSourceId⟩
    let resp : Option DescribeDataSourceOutput := none
    let stats := pollDataSource id (describe descOpts) backoff
      dataSourceReadTimeout
    match retryReturnedError stats with
    | some e =>
      if isAWSErrNotFound e then .cleared
      else .describeError e
    | none =>
      match resp with
      | none => .nilPanic
      | some out =>
        match out.dataSource with
        | none => .nilPanic
        | some ds => .ok ds.arn ds.dataSourceId awsAccountId

/-! ## The delete operations -/

/-- `quicksight.DeleteDataSourceInput`. -/
structure DeleteDataSourceInput where
  awsAccountId : GoStr
  dataSourceId : GoStr
deriving DecidableEq

/-- `quicksight.DeleteGroupInput`. -/
structure DeleteGroupInput where
  awsAccountId : GoStr
  ns : GoStr
  groupName : GoStr
deriving DecidableEq

/-- Observable outcome of a delete operation. -/
inductive DeleteOutcome
  | ok
  | parseError (e : ParseError)
  | error (e : AwsErr)
deriving DecidableEq

/-- `resourceAwsQuickSightDataSourceDelete`: parse the ID, call
`DeleteDataSource`; a `ResourceNotFoundException` from the call is treated as
success, any other call error is surfaced. -/
def resourceAwsQuickSightDataSourceDelete (id : GoStr)
    (deleteCall : DeleteDataSourceInput → Option AwsErr) : DeleteOutcome :=
  match resourceAwsQuickSightDataSourceParseID id with
  | .error e => .parseError e
  | .ok (awsAccountId, dataSourceId) =>
    match deleteCall ⟨awsAccountId, dataSourceId⟩ with
    | some e => if e = .resourceNotFound then .ok else .error e
    | none => .ok

/-- `resourceAwsQuickSightGroupDelete`: parse the ID, call `DeleteGroup`;
a `ResourceNotFoundException` from the call is treated as success, any other
call error is surfaced. -/
def resourceAwsQuickSightGroupDelete (id : GoStr)
    (deleteCall : DeleteGroupInput → Option AwsErr) : DeleteOutcome :=
  match resourceAwsQuickSightGroupParseID id with
  | .error e => .parseError e
  | .ok (awsAccountId, ns, groupName) =>
    match deleteCall ⟨awsAccountId, ns, groupName⟩ with
    | some e => if e = .resourceNotFound then .ok else .error e
    | none => .ok

/-- A describe-call result reporting an in-progress status: exactly the
results the retry closure classifies as retryable. -/
def inProgressFetch (r : DescribeResult) : Prop :=
  ∃ out ds, r.resp = some out ∧ out.dataSource = some ds ∧
    (ds.status = some .creationInProgress ∨ ds.status = some .updateInProgress)

theorem dataSourceRetryFunc_retryable_iff (id : GoStr) (r : DescribeResult) :
    (∃ e, dataSourceRetryFunc id r = .retryable e) ↔ inProgressFetch r := by
  obtain ⟨resp, err⟩ := r
  cases resp with
  | none =>
    cases err <;> simp [dataSourceRetryFunc, inProgressFetch]
  | some out =>
    obtain ⟨ds?⟩ := out
    cases ds? with
    | none =>
      cases err <;> simp [dataSourceRetryFunc, inProgressFetch]
    | some ds =>
      by_cases hst : ds.status = some .creationInProgress ∨
          ds.status = some .updateInProgress
      · simp only [dataSourceRetryFunc, if_pos hst, inProgressFetch]
        constructor
        · intro _; exact ⟨⟨some ds⟩, ds, rfl, rfl, hst⟩
        · intro _; exact ⟨_, rfl⟩
      · by_cases hf : ds.status = some .creationFailed ∨
            ds.status = some .updateFailed
        · simp only [dataSourceRetryFunc, if_neg hst, if_pos hf,
            inProgressFetch]
          constructor
          · intro ⟨e, he⟩; cases he
          · intro ⟨out2, ds2, h1, h2, h3⟩
            cases h1; cases h2
            exact absurd h3 hst
        · simp only [dataSourceRetryFunc, if_neg hst, if_neg hf,
            inProgressFetch]
          constructor
          · intro ⟨e, he⟩
            cases err <;> simp at he
          · intro ⟨out2, ds2, h1, h2, h3⟩
            cases h1; cases h2
            exact absurd h3 hst

theorem retryLoop_step_done (f : Nat → RetryFuncResult) (backoff maxWait : Nat)
    (j t fuel : Nat) (he : f j = .done) :
    retryLoop f backoff maxWait j t (fuel + 1) = ⟨.ok, j + 1, t⟩ := by
  simp [retryLoop, he]

theorem retryLoop_step_nonRetryable (f : Nat → RetryFuncResult)
    (backoff maxWait : Nat) (j t fuel : Nat) (e : PollError)
    (he : f j = .nonRetryable e) :
    retryLoop f backoff maxWait j t (fuel + 1) = ⟨.failed e, j + 1, t⟩ := by
  simp [retryLoop, he]

theorem retryLoop_step_retryable (f : Nat → RetryFuncResult)
    (backoff maxWait : Nat) (j t fuel : Nat) (e : PollError)
    (he : f j = .retryable e) (hguard : ¬ maxWait < t + backoff) :
    retryLoop f backoff maxWait j t (fuel + 1) =
      retryLoop f backoff maxWait (j + 1) (t + backoff) fuel := by
  simp [retryLoop, he, hguard]

theorem retryLoop_step_timeout (f : Nat → RetryFuncResult)
    (backoff maxWait : Nat) (j t fuel : Nat) (e : PollError)
    (he : f j = .retryable e) (hguard : maxWait < t + backoff) :
    retryLoop f backoff maxWait j t (fuel + 1) =
      ⟨.timedOut (some e), j + 1, t + backoff⟩ := by
  simp [retryLoop, he, hguard]

theorem retryLoop_reach (f : Nat → RetryFuncResult) (backoff maxWait : Nat) :
    ∀ k j t fuel,
      (∀ i, i < k → ∃ e, f (j + i) = .retryable e) →
      t + k * backoff ≤ maxWait → k ≤ fuel →
      retryLoop f backoff maxWait j t fuel =
        retryLoop f backoff maxWait (j + k) (t + k * backoff) (fuel - k) := by
  intro k
  induction k with
  | zero => intro j t fuel _ _ _; simp
  | succ k ih =>
    intro j t fuel hret hbudget hfuel
    obtain ⟨fuel2, rfl⟩ : ∃ f2, fuel = f2 + 1 := ⟨fuel - 1, by omega⟩
    obtain ⟨e, he⟩ : ∃ e, f j = .retryable e := by
      have h0 := hret 0 (Nat.succ_pos k)
      rwa [Nat.add_zero] at h0
    have hmul : backoff ≤ (k + 1) * backoff :=
      Nat.le_mul_of_pos_left backoff (Nat.succ_pos k)
    have hguard : ¬ maxWait < t + backoff := by
      intro hlt
      have : t + backoff ≤ maxWait := by linarith
      omega
    rw [retryLoop_step_retryable f backoff maxWait j t fuel2 e he hguard]
    have e1 : j + (k + 1) = j + 1 + k := by omega
    have e2 : t + (k + 1) * backoff = t + backoff + k * backoff := by ring
    have e3 : fuel2 + 1 - (k + 1) = fuel2 - k := by omega
    rw [e1, e2, e3]
    refine ih (j + 1) (t + backoff) fuel2 (fun i hi => ?_) (by linarith) (by omega)
    have h2 := hret (i + 1) (by omega)
    rwa [show j + (i + 1) = j + 1 + i from by omega] at h2

theorem lt_div_add_one_mul (m b : Nat) (hb : b ≠ 0) : m < (m / b + 1) * b := by
  have hdm := Nat.div_add_mod m b
  have hmod : m % b < b := Nat.mod_lt m (Nat.pos_of_ne_zero hb)
  have h1 : (m / b + 1) * b = m / b * b + b := by ring
  have h2 : b * (m / b) = m / b * b := by ring
  linarith

theorem retryLoop_timeout (f : Nat → RetryFuncResult) (backoff maxWait : Nat)
    (hret : ∀ i, ∃ e, f i = .retryable e) :
    ∀ fuel j t, t ≤ maxWait → maxWait < t + fuel * backoff →
      ∃ e k, retryLoop f backoff maxWait j t fuel =
        ⟨.timedOut (some e), j + k + 1, t + (k + 1) * backoff⟩ ∧
        maxWait < t + (k + 1) * backoff ∧ t + k * backoff ≤ maxWait := by
  intro fuel
  induction fuel with
  | zero =>
    intro j t h1 h2
    exfalso
    omega
  | succ fuel ih =>
    intro j t h1 h2
    obtain ⟨e, he⟩ := hret j
    by_cases hguard : maxWait < t + backoff
    · refine ⟨e, 0, ?_, ?_, ?_⟩
      · rw [retryLoop_step_timeout f backoff maxWait j t fuel e he hguard]
        simp
      · simpa using hguard
      · simpa using h1
    · rw [retryLoop_step_retryable f backoff maxWait j t fuel e he hguard]
      have h1b : t + backoff ≤ maxWait := by omega
      have h2b : maxWait < t + backoff + fuel * backoff := by
        have hr : t + (fuel + 1) * backoff = t + backoff + fuel * backoff := by
          ring
        linarith
      obtain ⟨e2, k, hk, hub, hlb⟩ := ih (j + 1) (t + backoff) h1b h2b
      refine ⟨e2, k + 1, ?_, ?_, ?_⟩
      · have ej : j + 1 + k + 1 = j + (k + 1) + 1 := by omega
        have et : t + backoff + (k + 1) * backoff = t + (k + 1 + 1) * backoff :=
          by ring
        rw [hk, ej, et]
      · have hr : t + backoff + (k + 1) * backoff = t + (k + 1 + 1) * backoff :=
          by ring
        linarith
      · have hr : t + backoff + k * backoff = t + (k + 1) * backoff := by ring
        linarith

theorem pollDataSource_nonRetryable (id : GoStr) (fetch : Nat → DescribeResult)
    (backoff maxWait k : Nat) (e : PollError) (hb : backoff ≠ 0)
    (hin : ∀ i, i < k → inProgressFetch (fetch i))
    (hbudget : k * backoff ≤ maxWait)
    (hcls : dataSourceRetryFunc id (fetch k) = .nonRetryable e) :
    pollDataSource id fetch backoff maxWait =
      ⟨.failed e, k + 1, k * backoff⟩ := by
  have hk : k ≤ maxWait / backoff :=
    (Nat.le_div_iff_mul_le (Nat.pos_of_ne_zero hb)).mpr hbudget
  unfold pollDataSource
  rw [retryLoop_reach _ backoff maxWait k 0 0 (maxWait / backoff + 1)
    (fun i hi => by
      rw [Nat.zero_add]
      exact (dataSourceRetryFunc_retryable_iff id (fetch i)).mpr (hin i hi))
    (by omega) (by omega)]
  simp only [Nat.zero_add]
  rw [show maxWait / backoff + 1 - k = maxWait / backoff - k + 1 from by omega]
  exact retryLoop_step_nonRetryable _ backoff maxWait k (k * backoff)
    (maxWait / backoff - k) e hcls

theorem pollDataSource_done (id : GoStr) (fetch : Nat → DescribeResult)
    (backoff maxWait k : Nat) (hb : backoff ≠ 0)
    (hin : ∀ i, i < k → inProgressFetch (fetch i))
    (hbudget : k * backoff ≤ maxWait)
    (hcls : dataSourceRetryFunc id (fetch k) = .done) :
    pollDataSource id fetch backoff maxWait = ⟨.ok, k + 1, k * backoff⟩ := by
  have hk : k ≤ maxWait / backoff :=
    (Nat.le_div_iff_mul_le (Nat.pos_of_ne_zero hb)).mpr hbudget
  unfold pollDataSource
  rw [retryLoop_reach _ backoff maxWait k 0 0 (maxWait / backoff + 1)
    (fun i hi => by
      rw [Nat.zero_add]
      exact (dataSourceRetryFunc_retryable_iff id (fetch i)).mpr (hin i hi))
    (by omega) (by omega)]
  simp only [Nat.zero_add]
  rw [show maxWait / backoff + 1 - k = maxWait / backoff - k + 1 from by omega]
  exact retryLoop_step_done _ backoff maxWait k (k * backoff)
    (maxWait / backoff - k) hcls

/-! ## Claims about the composite-identifier codec -/

/-- C1, counterexample: the 2-segment tuple `("a/b", "c")` has non-empty
segments, its encoding is `"a/b/c"`, but decoding with expected count 2
returns `("a", "b/c")`, not the original segments. -/
theorem compositeId_roundtrip_counterexample :
    dataSourceCompositeId ['a', '/', 'b'] ['c'] = ['a', '/', 'b', '/', 'c'] ∧
    resourceAwsQuickSightDataSourceParseID ['a', '/', 'b', '/', 'c'] =
      .ok (['a'], ['b', '/', 'c']) ∧
    ((['a'] : GoStr), (['b', '/', 'c'] : GoStr)) ≠
      (['a', '/', 'b'], ['c']) :=
  ⟨rfl, rfl, by decide⟩

/-- C1 (amended): for every tuple of 2 or 3 non-empty segments in which every
segment except the last contains no `/`, decoding the `/`-joined encoding
with the matching expected count succeeds and returns exactly the original
segments. -/
theorem compositeId_roundtrip :
    (∀ a b : GoStr, '/' ∉ a → a ≠ [] → b ≠ [] →
      resourceAwsQuickSightDataSourceParseID (dataSourceCompositeId a b) =
        .ok (a, b)) ∧
    (∀ a b c : GoStr, '/' ∉ a → '/' ∉ b → a ≠ [] → b ≠ [] → c ≠ [] →
      resourceAwsQuickSightGroupParseID (groupCompositeId a b c) =
        .ok (a, b, c)) := by
  constructor
  · intro a b hs ha hb
    exact (dataSourceParseID_ok_iff _ a b).mpr ⟨rfl, hs, ha, hb⟩
  · intro a b c hsa hsb ha hb hc
    exact (groupParseID_ok_iff _ a b c).mpr ⟨rfl, hsa, hsb, ha, hb, hc⟩

/-- Witness for the amended C1 at concrete segments. -/
theorem compositeId_roundtrip_witness :
    resourceAwsQuickSightDataSourceParseID
        (dataSourceCompositeId ['a'] ['b']) = .ok (['a'], ['b']) ∧
    resourceAwsQuickSightGroupParseID
        (groupCompositeId ['a'] ['n'] ['g']) = .ok (['a'], ['n'], ['g']) :=
  ⟨compositeId_roundtrip.1 ['a'] ['b'] (by decide) (by decide) (by decide),
   compositeId_roundtrip.2 ['a'] ['n'] ['g'] (by decide) (by decide)
     (by decide) (by decide) (by decide)⟩

/-- C2, counterexample: `"a/b/c"` has three `/`-separated segments — not the
data-source decode's expected two — yet the decode returns segments instead
of a format error. -/
theorem parseID_wrong_count_counterexample :
    (splitOnSlash ['a', '/', 'b', '/', 'c']).length = 3 ∧
    resourceAwsQuickSightDataSourceParseID ['a', '/', 'b', '/', 'c'] =
      .ok (['a'], ['b', '/', 'c']) :=
  ⟨rfl, rfl⟩

/-- C2 (amended): decode returns the format error exactly when the input is
not expectedCount non-empty `/`-joined parts with every part but the last
free of `/`.  In particular it errors on inputs with fewer `/`-separated
segments than expected or with an empty leading or trailing part, while
surplus segments are folded into the last returned part rather than
rejected. -/
theorem parseID_error_characterization :
    ∀ id : GoStr,
      ((∃ e, resourceAwsQuickSightDataSourceParseID id = .error e) ↔
        ¬ ∃ a b : GoStr, id = a ++ '/' :: b ∧ '/' ∉ a ∧ a ≠ [] ∧ b ≠ []) ∧
      ((∃ e, resourceAwsQuickSightGroupParseID id = .error e) ↔
        ¬ ∃ a b c : GoStr, id = a ++ '/' :: (b ++ '/' :: c) ∧
          '/' ∉ a ∧ '/' ∉ b ∧ a ≠ [] ∧ b ≠ [] ∧ c ≠ []) := by
  intro id
  constructor
  · constructor
    · rintro ⟨e, he⟩ ⟨a, b, hid, hs, ha, hb⟩
      have hok := (dataSourceParseID_ok_iff id a b).mpr ⟨hid, hs, ha, hb⟩
      rw [hok] at he
      exact Except.noConfusion he
    · intro hno
      cases hok : resourceAwsQuickSightDataSourceParseID id with
      | error e => exact ⟨e, rfl⟩
      | ok p =>
        obtain ⟨a, b⟩ := p
        obtain ⟨hid, hs, ha, hb⟩ := (dataSourceParseID_ok_iff id a b).mp hok
        exact absurd ⟨a, b, hid, hs, ha, hb⟩ hno
  · constructor
    · rintro ⟨e, he⟩ ⟨a, b, c, hid, hsa, hsb, ha, hb, hc⟩
      have hok := (groupParseID_ok_iff id a b c).mpr
        ⟨hid, hsa, hsb, ha, hb, hc⟩
      rw [hok] at he
      exact Except.noConfusion he
    · intro hno
      cases hok : resourceAwsQuickSightGroupParseID id with
      | error e => exact ⟨e, rfl⟩
      | ok p =>
        obtain ⟨a, b, c⟩ := p
        obtain ⟨hid, hsa, hsb, ha, hb, hc⟩ :=
          (groupParseID_ok_iff id a b c).mp hok
        exact absurd ⟨a, b, c, hid, hsa, hsb, ha, hb, hc⟩ hno

/-- C10: the composite identifier stored by the data-source create — account
id, `/`, data-source id — parses back into exactly those two components when
the account id is non-empty and `/`-free and the data-source id is
non-empty. -/
theorem createdId_parses_back (awsAccountId id : GoStr)
    (h1 : awsAccountId ≠ []) (h2 : '/' ∉ awsAccountId) (h3 : id ≠ []) :
    resourceAwsQuickSightDataSourceParseID
        (dataSourceCompositeId awsAccountId id) = .ok (awsAccountId, id) :=
  (dataSourceParseID_ok_iff _ _ _).mpr ⟨rfl, h2, h1, h3⟩

/-- Witness for C10 at a concrete account id and data-source id. -/
theorem createdId_parses_back_witness :
    resourceAwsQuickSightDataSourceParseID
        (dataSourceCompositeId ['1', '2'] ['d', 's']) =
      .ok (['1', '2'], ['d', 's']) :=
  createdId_parses_back ['1', '2'] ['d', 's'] (by decide) (by decide)
    (by decide)

/-! ## Claims about the read poller -/

/-- C3: when the first status fetch returns without error and reports a
status that is none of creation/update in-progress and creation/update
failed, the poller returns success having made exactly one fetch call and
waited no time. -/
theorem poll_success_on_first_stable_fetch (id : GoStr)
    (fetch : Nat → DescribeResult) (backoff maxWait : Nat)
    (out : DescribeDataSourceOutput) (ds : DataSource)
    (hresp : (fetch 0).resp = some out) (herr : (fetch 0).err = none)
    (hds : out.dataSource = some ds)
    (h1 : ds.status ≠ some .creationInProgress)
    (h2 : ds.status ≠ some .updateInProgress)
    (h3 : ds.status ≠ some .creationFailed)
    (h4 : ds.status ≠ some .updateFailed) :
    pollDataSource id fetch backoff maxWait = ⟨.ok, 1, 0⟩ := by
  have hcls : dataSourceRetryFunc id (fetch 0) = .done := by
    simp [dataSourceRetryFunc, hresp, herr, hds, h1, h2, h3, h4]
  unfold pollDataSource
  exact retryLoop_step_done _ backoff maxWait 0 0 (maxWait / backoff) hcls

/-- Witness for C3: one stable fetch, success after exactly one call. -/
theorem poll_success_witness :
    pollDataSource []
        (fun _ => ⟨some ⟨some ⟨[], [], some .creationSuccessful⟩⟩, none⟩)
        1 1 = ⟨.ok, 1, 0⟩ :=
  poll_success_on_first_stable_fetch [] _ 1 1
    ⟨some ⟨[], [], some .creationSuccessful⟩⟩
    ⟨[], [], some .creationSuccessful⟩ rfl rfl rfl (by decide) (by decide)
    (by decide) (by decide)

/-- C4: a fetch reporting a creation-failed or update-failed status stops the
poller at once with a non-retryable error carrying the resource identifier
and the failed status; the fetch count stays at that fetch. -/
theorem poll_failed_status_stops (id : GoStr) (fetch : Nat → DescribeResult)
    (backoff maxWait k : Nat) (out : DescribeDataSourceOutput)
    (ds : DataSource) (hb : backoff ≠ 0)
    (hin : ∀ i, i < k → inProgressFetch (fetch i))
    (hbudget : k * backoff ≤ maxWait)
    (hresp : (fetch k).resp = some out) (hds : out.dataSource = some ds)
    (hst : ds.status = some .creationFailed ∨
      ds.status = some .updateFailed) :
    pollDataSource id fetch backoff maxWait =
      ⟨.failed (.operationFailed id ds.status), k + 1, k * backoff⟩ := by
  have hcls : dataSourceRetryFunc id (fetch k) =
      .nonRetryable (.operationFailed id ds.status) := by
    rcases hst with h | h <;>
      simp [dataSourceRetryFunc, hresp, hds, h]
  exact pollDataSource_nonRetryable id fetch backoff maxWait k _ hb hin
    hbudget hcls

/-- Witness for C4: an immediate creation-failed status. -/
theorem poll_failed_witness :
    pollDataSource []
        (fun _ => ⟨some ⟨some ⟨[], [], some .creationFailed⟩⟩, none⟩) 1 1 =
      ⟨.failed (.operationFailed [] (some .creationFailed)), 1, 0⟩ :=
  poll_failed_status_stops [] _ 1 1 0 ⟨some ⟨[], [], some .creationFailed⟩⟩
    ⟨[], [], some .creationFailed⟩ (by decide)
    (fun i hi => absurd hi (Nat.not_lt_zero i)) (by decide) rfl rfl
    (Or.inl rfl)

/-- C6: a resource-not-found error from a status fetch — no matter how many
in-progress observations preceded it — ends the poll at that fetch, and the
read clears the local resource ID and returns nil rather than an error. -/
theorem read_notFound_clears (awsAccountId dsid : GoStr)
    (describe : DescribeDataSourceInput → Nat → DescribeResult)
    (backoff k : Nat)
    (ha1 : awsAccountId ≠ []) (ha2 : '/' ∉ awsAccountId) (hd : dsid ≠ [])
    (hb : backoff ≠ 0)
    (hin : ∀ i, i < k → inProgressFetch (describe ⟨awsAccountId, dsid⟩ i))
    (hbudget : k * backoff ≤ dataSourceReadTimeout)
    (hresp : (describe ⟨awsAccountId, dsid⟩ k).resp = some ⟨none⟩)
    (herr : (describe ⟨awsAccountId, dsid⟩ k).err = some .resourceNotFound) :
    resourceAwsQuickSightDataSourceRead
        (dataSourceCompositeId awsAccountId dsid) describe backoff =
      .cleared ∧
    (pollDataSource (dataSourceCompositeId awsAccountId dsid)
        (describe ⟨awsAccountId, dsid⟩) backoff
        dataSourceReadTimeout).fetchCount = k + 1 := by
  have hparse : resourceAwsQuickSightDataSourceParseID
      (dataSourceCompositeId awsAccountId dsid) = .ok (awsAccountId, dsid) :=
    (dataSourceParseID_ok_iff _ _ _).mpr ⟨rfl, ha2, ha1, hd⟩
  have hcls : dataSourceRetryFunc (dataSourceCompositeId awsAccountId dsid)
      (describe ⟨awsAccountId, dsid⟩ k) = .nonRetryable (.api .resourceNotFound) := by
    simp [dataSourceRetryFunc, hresp, herr]
  have hpoll := pollDataSource_nonRetryable
    (dataSourceCompositeId awsAccountId dsid)
    (describe ⟨awsAccountId, dsid⟩) backoff dataSourceReadTimeout k
    (.api .resourceNotFound) hb hin hbudget hcls
  refine ⟨?_, by rw [hpoll]⟩
  simp [resourceAwsQuickSightDataSourceRead, hparse, hpoll,
    retryReturnedError, isAWSErrNotFound]

/-- Witness for C6: a not-found error on the very first fetch. -/
theorem read_notFound_witness :
    resourceAwsQuickSightDataSourceRead (dataSourceCompositeId ['a'] ['d'])
        (fun _ _ => ⟨some ⟨none⟩, some .resourceNotFound⟩) 1 = .cleared ∧
    (pollDataSource (dataSourceCompositeId ['a'] ['d'])
        ((fun _ _ => ⟨some ⟨none⟩, some .resourceNotFound⟩)
          (⟨['a'], ['d']⟩ : DescribeDataSourceInput)) 1
        dataSourceReadTimeout).fetchCount = 0 + 1 :=
  read_notFound_clears ['a'] ['d'] _ 1 0 (by decide) (by decide) (by decide)
    (by decide) (fun i hi => absurd hi (Nat.not_lt_zero i)) (by decide) rfl
    rfl

/-- C7: a fetch outcome is classified retryable exactly when it reports a
creation- or update-in-progress status, and the first fetch that is not
in-progress ends the loop at that fetch (fetch count k+1). -/
theorem poll_retry_policy :
    (∀ (id : GoStr) (r : DescribeResult),
      (∃ e, dataSourceRetryFunc id r = .retryable e) ↔ inProgressFetch r) ∧
    (∀ (id : GoStr) (fetch : Nat → DescribeResult) (backoff maxWait k : Nat),
      backoff ≠ 0 →
      (∀ i, i < k → inProgressFetch (fetch i)) →
      k * backoff ≤ maxWait →
      ¬ inProgressFetch (fetch k) →
      (pollDataSource id fetch backoff maxWait).fetchCount = k + 1) := by
  refine ⟨dataSourceRetryFunc_retryable_iff, ?_⟩
  intro id fetch backoff maxWait k hb hin hbudget hnot
  cases hcls : dataSourceRetryFunc id (fetch k) with
  | retryable e =>
    exact absurd
      ((dataSourceRetryFunc_retryable_iff id (fetch k)).mp ⟨e, hcls⟩) hnot
  | nonRetryable e =>
    rw [pollDataSource_nonRetryable id fetch backoff maxWait k e hb hin
      hbudget hcls]
  | done =>
    rw [pollDataSource_done id fetch backoff maxWait k hb hin hbudget hcls]

/-- Witness for C7: a first fetch carrying a transport error is not
retryable and the loop ends after that single fetch. -/
theorem poll_retry_policy_witness :
    (pollDataSource [] (fun _ => ⟨none, some (.other [])⟩) 1 1).fetchCount =
      0 + 1 :=
  poll_retry_policy.2 [] _ 1 1 0 (by decide)
    (fun i hi => absurd hi (Nat.not_lt_zero i)) (by decide)
    (fun h => by
      obtain ⟨out, ds, h1, h2, h3⟩ := h
      exact Option.noConfusion h1)

/-- C8: with every fetch reporting an in-progress status, the poller's
fetches are spaced one backoff interval apart (elapsed time equals fetch
count times backoff) and it returns a timeout — an outcome distinct from any
reported-failure outcome — once the elapsed time exceeds the 5-minute
maximum, exceeding it by at most one backoff interval. -/
theorem poll_timeout_on_persistent_inProgress (id : GoStr)
    (fetch : Nat → DescribeResult) (backoff : Nat) (hb : backoff ≠ 0)
    (hin : ∀ i, inProgressFetch (fetch i)) :
    ∃ e n t,
      pollDataSource id fetch backoff dataSourceReadTimeout =
        ⟨.timedOut (some e), n, t⟩ ∧
      dataSourceReadTimeout < t ∧ t ≤ dataSourceReadTimeout + backoff ∧
      t = n * backoff ∧
      ∀ e2, RetryOutcome.timedOut (some e) ≠ .failed e2 := by
  have hfuel : dataSourceReadTimeout <
      0 + (dataSourceReadTimeout / backoff + 1) * backoff := by
    have := lt_div_add_one_mul dataSourceReadTimeout backoff hb
    omega
  obtain ⟨e, k, hk, hub, hlb⟩ := retryLoop_timeout
    (fun i => dataSourceRetryFunc id (fetch i)) backoff dataSourceReadTimeout
    (fun i => (dataSourceRetryFunc_retryable_iff id (fetch i)).mpr (hin i))
    (dataSourceReadTimeout / backoff + 1) 0 0 (Nat.zero_le _) hfuel
  simp only [Nat.zero_add] at hk hub hlb
  refine ⟨e, k + 1, (k + 1) * backoff, hk, hub, ?_, rfl, fun e2 h => by
    cases h⟩
  have hr : (k + 1) * backoff = k * backoff + backoff := by ring
  omega

/-- Witness for C8: a permanently in-progress resource with the backoff set
to the maximum wait itself; the poller times out. -/
theorem poll_timeout_witness :
    ∃ e n t,
      pollDataSource []
          (fun _ => ⟨some ⟨some ⟨[], [], some .creationInProgress⟩⟩, none⟩)
          dataSourceReadTimeout dataSourceReadTimeout =
        ⟨.timedOut (some e), n, t⟩ ∧
      dataSourceReadTimeout < t ∧
      t ≤ dataSourceReadTimeout + dataSourceReadTimeout ∧
      t = n * dataSourceReadTimeout ∧
      ∀ e2, RetryOutcome.timedOut (some e) ≠ .failed e2 :=
  poll_timeout_on_persistent_inProgress [] _ dataSourceReadTimeout
    (by decide)
    (fun i => ⟨⟨some ⟨[], [], some .creationInProgress⟩⟩,
      ⟨[], [], some .creationInProgress⟩, rfl, rfl, Or.inl rfl⟩)

/-- C5 (code defect): the retry closure's `resp, err :=` redeclares `resp`,
shadowing the function-level `resp` the post-loop code reads, so on a
successful poll — here a first fetch reporting the stable status
creation-successful — the read dereferences a nil `resp` instead of setting
`arn`, `id` and `aws_account_id` from the fetched response. -/
theorem read_success_nilPanic :
    resourceAwsQuickSightDataSourceRead ['a', '/', 'd']
        (fun _ _ => ⟨some ⟨some ⟨['r'], ['d'], some .creationSuccessful⟩⟩,
          none⟩)
        dataSourceReadTimeout = .nilPanic := by
  decide

/-! ## Claims about the delete operations -/

/-- C9: for both delete operations, a resource-not-found error from the
remote delete call yields success (nil); any other delete-call error is
surfaced to the caller. -/
theorem delete_notFound_is_success :
    (∀ (id : GoStr) (deleteCall : DeleteDataSourceInput → Option AwsErr)
        (a b : GoStr),
      resourceAwsQuickSightDataSourceParseID id = .ok (a, b) →
      (deleteCall ⟨a, b⟩ = some .resourceNotFound →
        resourceAwsQuickSightDataSourceDelete id deleteCall = .ok) ∧
      (∀ c, deleteCall ⟨a, b⟩ = some (.other c) →
        resourceAwsQuickSightDataSourceDelete id deleteCall =
          .error (.other c))) ∧
    (∀ (id : GoStr) (deleteCall : DeleteGroupInput → Option AwsErr)
        (a b c : GoStr),
      resourceAwsQuickSightGroupParseID id = .ok (a, b, c) →
      (deleteCall ⟨a, b, c⟩ = some .resourceNotFound →
        resourceAwsQuickSightGroupDelete id deleteCall = .ok) ∧
      (∀ cd, deleteCall ⟨a, b, c⟩ = some (.other cd) →
        resourceAwsQuickSightGroupDelete id deleteCall =
          .error (.other cd))) := by
  constructor
  · intro id deleteCall a b hparse
    constructor
    · intro hcall
      simp [resourceAwsQuickSightDataSourceDelete, hparse, hcall]
    · intro c hcall
      simp [resourceAwsQuickSightDataSourceDelete, hparse, hcall]
  · intro id deleteCall a b c hparse
    constructor
    · intro hcall
      simp [resourceAwsQuickSightGroupDelete, hparse, hcall]
    · intro cd hcall
      simp [resourceAwsQuickSightGroupDelete, hparse, hcall]

/-- Witness for C9: deleting an already-gone data source and group both
return success. -/
theorem delete_notFound_witness :
    resourceAwsQuickSightDataSourceDelete ['a', '/', 'b']
        (fun _ => some .resourceNotFound) = .ok ∧
    resourceAwsQuickSightGroupDelete ['a', '/', 'n', '/', 'g']
        (fun _ => some .resourceNotFound) = .ok :=
  ⟨(delete_notFound_is_success.1 ['a', '/', 'b'] _ ['a'] ['b'] rfl).1 rfl,
   (delete_notFound_is_success.2 ['a', '/', 'n', '/', 'g'] _ ['a'] ['n']
      ['g'] rfl).1 rfl⟩
